import Mathlib

/-
Shallow embedding of src/rudp.go (package rudp), a reliable-delivery
overlay on an unreliable datagram transport, together with theorems
settling the claims about its specification.

Modelling conventions, recorded once here and referenced from the
individual definitions:
- Go `int` is modelled as `Int` (values in this engine stay far below
  the 64-bit overflow boundary on every path a theorem touches).
- Go byte slices are `List Nat`, each element a byte value.  The decoder
  is always called with `size` equal to the length of the buffer, so the
  separate `size` parameter of ExtractPackage is modelled as the list
  length.
- `container/list` lists are modelled as Lean lists whose elements are
  `Entry`: a `*Message` value or a non-message value (`Entry.junk`) such
  as the session pushed by InsertMessage or the `*list.Element` pushed by
  SendMessage; Go type assertions on the latter fail.
- Removing the element an iteration currently points at clears its
  `next`/`prev` pointers in `container/list`, so a `for e := l.Front();
  e != nil; e = e.Next()` loop that removes `e` ends right after the
  first removal.  The loop models below reflect that.
- A nil-pointer dereference or an out-of-range slice write is a runtime
  panic, modelled by `Option` with `none` as the aborted computation.
-/

namespace Rudp

/-- Bitwise difference a AND (NOT b) on Nat, computed with the
kernel-accelerated operations. -/
def natLdiff (a b : Nat) : Nat := a - (a &&& b)

/-- Bitwise AND on Int, using the twos-complement reading of negative
numbers, exactly as Go performs `&` on int values. -/
def intLand : Int → Int → Int
  | .ofNat m, .ofNat n => .ofNat (m &&& n)
  | .ofNat m, .negSucc n => .ofNat (natLdiff m n)
  | .negSucc m, .ofNat n => .ofNat (natLdiff n m)
  | .negSucc m, .negSucc n => .negSucc (m ||| n)

/-- Bitwise OR on Int, using the twos-complement reading of negative
numbers, exactly as Go performs the or operator on int values. -/
def intLor : Int → Int → Int
  | .ofNat m, .ofNat n => .ofNat (m ||| n)
  | .ofNat m, .negSucc n => .negSucc (natLdiff n m)
  | .negSucc m, .ofNat n => .negSucc (natLdiff m n)
  | .negSucc m, .negSucc n => .negSucc (m &&& n)

/-- Go conversion of an int to a byte: the low 8 bits (twos complement),
which is the nonnegative remainder modulo 256. -/
def toByte (x : Int) : Nat := (x % 256).toNat

/-- Constant DefaultPackageSize = 512 from the source. -/
def DefaultPackageSize : Int := 512

/-- Record type constants from the source const block (iota). -/
def TypeIgnore : Nat := 0

/-- Record type constant TypeCorrupt = 1. -/
def TypeCorrupt : Nat := 1

/-- Record type constant TypeRequest = 2. -/
def TypeRequest : Nat := 2

/-- Record type constant TypeMissing = 3. -/
def TypeMissing : Nat := 3

/-- Record type constant TypeNormal = 4. -/
def TypeNormal : Nat := 4

/-- Message struct from the source: Size, Cap, ID, Tick, Buf. -/
structure Message where
  size : Int
  cap : Int
  id : Int
  tick : Int
  buf : List Nat
deriving DecidableEq

/-- One element of a `container/list` list.  `msg` is a stored `*Message`;
`junk` is any other stored value (the session value that InsertMessage
passes to InsertAfter, or the `*list.Element` that SendMessage pushes into
the history): the type assertion `e.Value.(*Message)` fails on those. -/
inductive Entry where
  | msg (m : Message)
  | junk
deriving DecidableEq

/-- PackageIndex struct (the growable array SendAgain): Cap, N, A. -/
structure PackageIndex where
  cap : Int := 0
  n : Int := 0
  a : List Int := []
deriving DecidableEq

/-- RUDPPackage struct: Size, Buf. -/
structure RUDPPackage where
  size : Int
  buf : List Nat
deriving DecidableEq

/-- RUDP session struct.  Field names follow the source.  All fields of a
fresh Go struct are zero values, mirrored by the defaults here. -/
structure RUDP where
  sendQueue : List Entry := []
  recvQueue : List Entry := []
  sendHistory : List Entry := []
  sendPackage : List RUDPPackage := []
  freeList : List Entry := []
  sendAgain : PackageIndex := {}
  corrupt : Int := 0
  currentTick : Int := 0
  lastSendTick : Int := 0
  lastExpireTick : Int := 0
  sendId : Int := 0
  recvIdMin : Int := 0
  recvIdMax : Int := 0
  sendDelay : Int := 0
  expired : Int := 0
deriving DecidableEq

/-- RUDPNew: allocates the session and sets SendDelay and Expired.  The
source initializes SendQueue, RecvQueue, SendHistory and SendPackage with
list.New and never initializes FreeList; all lists are modelled as the
empty list. -/
def RUDPNew (sendDlay : Int) (expireTime : Int) : RUDP :=
  { sendDelay := sendDlay, expired := expireTime }

/-- NewMessage builds a fresh Message.  The source copies `buf` into the
Buf of a zero-valued Message, whose Buf is the empty slice, so zero bytes
are copied and Buf stays empty; Tick and ID are zeroed, Size is the size
argument and Cap is DefaultPackageSize.  The push of the new message onto
FreeList is performed at each call site (the caller may still assign ID
and Tick through the shared pointer before anything reads the entry, so
the call sites push the final field values). -/
def NewMessage (buf : List Nat) (size : Int) : Message :=
  { size := size, cap := DefaultPackageSize, id := 0, tick := 0, buf := [] }

/-- QueuePush: PushFront of the message, i.e. cons at the head. -/
def QueuePush (q : List Entry) (m : Message) : List Entry :=
  Entry.msg m :: q

/-- QueuePop: scan from the front for the first stored `*Message` whose ID
matches, remove it and return it; entries whose type assertion fails are
skipped; returns the removed message (if any) and the remaining list. -/
def QueuePop (q : List Entry) (id : Int) : Option Message × List Entry :=
  match q with
  | [] => (none, [])
  | Entry.msg m :: rest =>
    if m.id = id then (some m, rest)
    else
      let r := QueuePop rest id
      (r.1, Entry.msg m :: r.2)
  | Entry.junk :: rest =>
    let r := QueuePop rest id
    (r.1, Entry.junk :: r.2)

/-- RemoveMessage: removes the first FreeList entry holding the given
message (Go compares pointers; modelled as structural equality on the
stored value) and, because removal clears the links of the element the
loop is on, the scan ends there. -/
def RemoveMessage (freeList : List Entry) (m : Message) : List Entry :=
  freeList.eraseP fun e =>
    match e with
    | Entry.msg m2 => m2 == m
    | Entry.junk => false

/-- RUDPSend: increments SendId, builds a message carrying the new id and
the current tick, and pushes it at the front of SendQueue (QueuePush is a
PushFront).  The same message value is what NewMessage left on FreeList,
since ID and Tick are assigned through the shared pointer. -/
def RUDPSend (u : RUDP) (buf : List Nat) (size : Int) : RUDP :=
  let sendId := u.sendId + 1
  let m := { NewMessage buf size with id := sendId, tick := u.currentTick }
  { u with
      sendId := sendId
      freeList := Entry.msg m :: u.freeList
      sendQueue := QueuePush u.sendQueue m }

/-- RUDPRecv: if Corrupt is nonzero (the source tests the int directly),
clear it and return the corrupt error; otherwise pop the entry whose ID is
RecvIdMin, and when one is found increment RecvIdMin and drop the message
from FreeList.  The returned byte list is always empty because `res` is a
nil slice and copying into it copies nothing.  The Bool is whether the
returned error is ErrCorrupt. -/
def RUDPRecv (u : RUDP) : (List Nat × Bool) × RUDP :=
  if u.corrupt ≠ 0 then
    (([], true), { u with corrupt := 0 })
  else
    match QueuePop u.recvQueue u.recvIdMin with
    | (none, _) => (([], false), u)
    | (some m, q2) =>
      (([], false),
        { u with
            recvQueue := q2
            recvIdMin := u.recvIdMin + 1
            freeList := RemoveMessage u.freeList m })

/-- ClearSendExpired walks SendHistory from the back and removes the
entries whose Tick is at least the given tick (the source comparison is
`msg.Tick >= tick`); since removing the current element ends the loop,
at most one entry (the one closest to the back that satisfies the
comparison) is removed.  The source mutates u.SendHistory; modelled as a
function of the history list. -/
def ClearSendExpired (hist : List Entry) (tick : Int) : List Entry :=
  (hist.reverse.eraseP fun e =>
    match e with
    | Entry.msg m => decide (m.tick ≥ tick)
    | Entry.junk => false).reverse

/-- GetID reconstructs an extended id from the two wire bytes buf[0] and
buf[1] (passed here as b0 and b1): or in the high bits of RecvIdMax
(`^0xffff` is the Go constant -65536) and then adjust by 0x100000 when the
result is more than 0x8000 away from RecvIdMax. -/
def GetID (u : RUDP) (b0 b1 : Nat) : Int :=
  let id0 : Int := (b0 : Int) * 256 + (b1 : Int)
  let id1 : Int := intLor id0 (intLand u.recvIdMax (-65536))
  if id1 < u.recvIdMax - 0x8000 then id1 + 0x100000
  else if id1 > u.recvIdMax + 0x8000 then id1 - 0x100000
  else id1

/-- Helper for the final branch of InsertMessage, which scans RecvQueue
from the back (the argument here is the reversed queue): at the first
stored message whose ID exceeds the new id, the source calls
`u.RecvQueue.InsertAfter(u, e)`, inserting the session value itself (an
`Entry.junk`) after that element, and returns; entries that are not
messages are skipped; if no entry matches, nothing is inserted. -/
def insertJunkRev (id : Int) : List Entry → Option (List Entry)
  | [] => none
  | Entry.msg m :: rest =>
    if m.id > id then some (Entry.junk :: Entry.msg m :: rest)
    else (insertJunkRev id rest).map fun r => Entry.msg m :: r
  | Entry.junk :: rest =>
    (insertJunkRev id rest).map fun r => Entry.junk :: r

/-- InsertMessage: ids below RecvIdMin are dropped; if the id exceeds
RecvIdMax or the queue is empty, a fresh message with that id is pushed at
the front of RecvQueue (QueuePush is a PushFront) and RecvIdMax is set;
otherwise the back-to-front scan of insertJunkRev runs, and when it finds
a larger stored id it builds a fresh message (pushed onto FreeList, id
left 0, and then discarded) while inserting the session value into the
queue. -/
def InsertMessage (u : RUDP) (id : Int) (buf : List Nat) (size : Int) : RUDP :=
  if id < u.recvIdMin then u
  else if id > u.recvIdMax ∨ u.recvQueue = [] then
    let m := { NewMessage buf size with id := id }
    { u with
        freeList := Entry.msg m :: u.freeList
        recvQueue := QueuePush u.recvQueue m
        recvIdMax := id }
  else
    match insertJunkRev id u.recvQueue.reverse with
    | some revq =>
      { u with
          freeList := Entry.msg (NewMessage buf size) :: u.freeList
          recvQueue := revq.reverse }
    | none => u

/-- AddMissing: insert a placeholder (nil buffer, size -1) at the id. -/
def AddMissing (u : RUDP) (id : Int) : RUDP :=
  InsertMessage u id [] (-1)

/-- Outcome of one iteration of the ExtractPackage loop: either continue
with a new state after consuming k further bytes, or return from the
function with a final state. -/
inductive StepOut where
  | cont (u : RUDP) (k : Nat)
  | halt (u : RUDP)
deriving DecidableEq

/-- State carried by a StepOut, whichever constructor it is. -/
def StepOut.state : StepOut → RUDP
  | .cont u _ => u
  | .halt u => u

/-- One iteration of the switch in ExtractPackage, after the one- or
two-byte length prefix has been consumed: `length` is the decoded prefix
value and `rest` the remaining bytes (the remaining `size` equals the
length of `rest`).  TypeIgnore appends RecvIdMin to SendAgain.A when
SendAgain.N is 0 (N itself is never changed); TypeCorrupt sets the flag
and returns; TypeRequest and TypeMissing need two id bytes, else corrupt;
the default case is a data record of payload length `length - TypeNormal`
needing that many payload bytes after the two id bytes, else corrupt.
The buffer slice `buf[2:]` handed to InsertMessage is everything after
the id bytes, as in the source (its content is ignored there anyway). -/
def extractStep (u : RUDP) (length : Nat) (rest : List Nat) : StepOut :=
  if length = TypeIgnore then
    StepOut.cont
      (if u.sendAgain.n = 0 then
        { u with sendAgain := { u.sendAgain with a := u.sendAgain.a ++ [u.recvIdMin] } }
      else u) 0
  else if length = TypeCorrupt then
    StepOut.halt { u with corrupt := 1 }
  else if length = TypeRequest ∨ length = TypeMissing then
    match rest with
    | b0 :: b1 :: _ =>
      if length = TypeRequest then
        StepOut.cont
          { u with sendAgain := { u.sendAgain with a := u.sendAgain.a ++ [GetID u b0 b1] } } 2
      else
        StepOut.cont (AddMissing u (GetID u b0 b1)) 2
    | _ => StepOut.halt { u with corrupt := 1 }
  else
    let len := length - TypeNormal
    match rest with
    | b0 :: b1 :: r2 =>
      if r2.length < len then StepOut.halt { u with corrupt := 1 }
      else StepOut.cont (InsertMessage u (GetID u b0 b1) r2 (len : Int)) (len + 2)
    | _ => StepOut.halt { u with corrupt := 1 }

/-- ExtractPackage: decode the records of one incoming buffer left to
right.  A first byte above 127 starts a two-byte prefix (corrupt if the
second byte is missing) whose value is `(b0*256+b1) & 0x7fff`; then the
switch of extractStep runs, and on `cont` the loop continues behind the
consumed bytes.  The separate `size` argument of the source always equals
the buffer length at the call sites and is modelled as such. -/
def ExtractPackage : RUDP → List Nat → RUDP
  | u, [] => u
  | u, b0 :: rest0 =>
    if b0 > 127 then
      match rest0 with
      | [] => { u with corrupt := 1 }
      | b1 :: rest1 =>
        match extractStep u ((b0 * 256 + b1) &&& 0x7fff) rest1 with
        | .halt u2 => u2
        | .cont u2 k => ExtractPackage u2 (rest1.drop k)
    else
      match extractStep u b0 rest0 with
      | .halt u2 => u2
      | .cont u2 k => ExtractPackage u2 (rest0.drop k)
termination_by _ buf => buf.length
decreasing_by
  · simp only [List.length_drop, List.length_cons]
    omega
  · simp only [List.length_drop, List.length_cons]
    omega

/-- TmpBuffer struct: the 512-byte staging buffer, its fill size, and the
list of sealed packages. -/
structure TmpBuffer where
  buf : List Nat
  size : Int
  packages : List RUDPPackage
deriving DecidableEq

/-- NewPacakge (name as in the source): seals the staging buffer into a
fresh RUDPPackage and resets the fill size.  The copy into the nil Buf of
the fresh package copies zero bytes, so the sealed package carries the
size but an empty buffer. -/
def NewPacakge (tmp : TmpBuffer) : TmpBuffer :=
  { tmp with
      packages := tmp.packages ++ [{ size := tmp.size, buf := [] }]
      size := 0 }

/-- FillHeader writes a record header at offset 0 of the given buffer: a
one-byte prefix for length < 128, else the two-byte prefix whose first
byte is `((length & 0x7f00) >> 8) | 0x89` (the constant as written in the
source) and whose second byte is the low byte of the length, followed by
the two big-endian id bytes.  The Go function declares named results
(offset, size) that the callers destructure; buffers being immutable
values here, the result is (buffer, offset, size). -/
def FillHeader (buf : List Nat) (length : Int) (id : Int) : List Nat × Int × Int :=
  let first :=
    if length < 128 then (buf.set 0 (toByte length), (1 : Int))
    else
      (((buf.set 0 (((intLand length 0x7f00).toNat >>> 8) ||| 0x89)).set 1
          (intLand length 0xff).toNat), (2 : Int))
  let buf2 :=
    ((first.1.set first.2.toNat ((intLand id 0xff00).toNat >>> 8)).set
      (first.2.toNat + 1) (intLand id 0xff).toNat)
  (buf2, first.2 + 2, first.2 + 2)

/-- PackRequest: seal the staging buffer when fewer than 3 bytes remain,
then write a header with the tag as its length field — at offset 0 of the
staging buffer, as the source does — and add the written size to the fill
size. -/
def PackRequest (tmp : TmpBuffer) (id : Int) (tag : Int) : TmpBuffer :=
  let tmp1 := if DefaultPackageSize - tmp.size < 3 then NewPacakge tmp else tmp
  let r := FillHeader tmp1.buf tag id
  { tmp1 with buf := r.1, size := tmp1.size + r.2.2 }

/-- PackMessage: the source only has code for messages whose Size exceeds
DefaultPackageSize - 4; that branch seals the staging buffer when
non-empty and then calls FillHeader on the nil Buf of a fresh
RUDPPackage, an out-of-range write (runtime panic), modelled as `none`.
For any smaller message the function body is empty: nothing is emitted
and the staging buffer is unchanged. -/
def PackMessage (tmp : TmpBuffer) (m : Message) : Option TmpBuffer :=
  if m.size > DefaultPackageSize - 4 then none
  else some tmp

/-- Loop `for i := id; i < hi; i++ { PackRequest(u, tmp, i, TypeRequest) }`
from RequestMissing. -/
def packRange (tmp : TmpBuffer) (lo hi : Int) : TmpBuffer :=
  if lo < hi then packRange (PackRequest tmp lo (TypeRequest : Nat)) (lo + 1) hi
  else tmp
termination_by (hi - lo).toNat
decreasing_by omega

/-- Body of the RequestMissing walk over RecvQueue (front to back): the
source drops the ok result of the type assertion, so a non-message entry
is a nil dereference (`none`); for each stored message, ids from the
running id up to that message id are requested, and the running id
becomes the message id plus one. -/
def requestMissingGo : List Entry → Int → TmpBuffer → Option TmpBuffer
  | [], _, tmp => some tmp
  | Entry.junk :: _, _, _ => none
  | Entry.msg m :: rest, id, tmp =>
    let tmp1 := if m.id > id then packRange tmp id m.id else tmp
    requestMissingGo rest (m.id + 1) tmp1

/-- RequestMissing: walk RecvQueue starting the running id at RecvIdMin. -/
def RequestMissing (u : RUDP) (tmp : TmpBuffer) : Option TmpBuffer :=
  requestMissingGo u.recvQueue u.recvIdMin tmp

/-- Inner loop of ReplyRequest for a single requested id: walk the history
cursor forward; when the cursor is nil, pack a Missing record; on a
history entry that is not a message the dropped type assertion yields a
nil dereference (`none`); when the stored id exceeds the requested one,
pack a Missing record and stop with the cursor parked there; on a match,
pack the message (PackMessage may panic) and stop with the cursor parked
there; otherwise advance the cursor. -/
def handleOne (id : Int) : List Entry → TmpBuffer → Option (TmpBuffer × List Entry)
  | [], tmp => some (PackRequest tmp id (TypeMissing : Nat), [])
  | Entry.junk :: _, _ => none
  | Entry.msg his :: rest, tmp =>
    if id < his.id then some (PackRequest tmp id (TypeMissing : Nat), Entry.msg his :: rest)
    else if id = his.id then (PackMessage tmp his).map fun t => (t, Entry.msg his :: rest)
    else handleOne id rest tmp

/-- Outer loop of ReplyRequest over the first N entries of SendAgain.A:
requested ids below RecvIdMin are skipped; the history cursor is carried
from one id to the next (a single forward scan). -/
def replyLoop (rmin : Int) : List Int → List Entry → TmpBuffer → Option TmpBuffer
  | [], _, tmp => some tmp
  | id :: ids, hist, tmp =>
    if id < rmin then replyLoop rmin ids hist tmp
    else
      match handleOne id hist tmp with
      | none => none
      | some (tmp1, hist1) => replyLoop rmin ids hist1 tmp1

/-- ReplyRequest: iterate i from 0 to SendAgain.N - 1 over SendAgain.A
(indexing out of range is a panic, `none`), with the cursor starting at
the front of SendHistory, and finally reset SendAgain.N to 0. -/
def ReplyRequest (u : RUDP) (tmp : TmpBuffer) : Option (RUDP × TmpBuffer) :=
  if u.sendAgain.n.toNat > u.sendAgain.a.length then none
  else
    match replyLoop u.recvIdMin (u.sendAgain.a.take u.sendAgain.n.toNat) u.sendHistory tmp with
    | none => none
    | some tmp1 => some ({ u with sendAgain := { u.sendAgain with n := 0 } }, tmp1)

/-- SendMessage: the loop takes the front of SendQueue (a non-message
entry would be a nil dereference inside PackMessage, `none`), packs it,
pushes the list element itself (not the message) at the back of
SendHistory — an `Entry.junk` for every later type assertion — and
removes it from SendQueue; removing the element ends the loop, so only
the front entry is processed per call. -/
def SendMessage (u : RUDP) (tmp : TmpBuffer) : Option (RUDP × TmpBuffer) :=
  match u.sendQueue with
  | [] => some (u, tmp)
  | Entry.junk :: _ => none
  | Entry.msg m :: rest =>
    match PackMessage tmp m with
    | none => none
    | some tmp1 =>
      some ({ u with
                sendHistory := u.sendHistory ++ [Entry.junk]
                sendQueue := rest }, tmp1)

/-- GenOutPackage: run the three packing phases over a fresh staging
buffer, fill in a single TypeIgnore byte when no package was sealed and
the staging buffer is empty, and seal once more.  The source never
initializes tmp.Packages (modelled as the empty list) and has no return
statement (the produced package list is what RUDPUpdate stores); both are
modelled by returning the final state and the sealed packages. -/
def GenOutPackage (u : RUDP) : Option (RUDP × List RUDPPackage) :=
  let tmp0 : TmpBuffer := { buf := List.replicate 512 0, size := 0, packages := [] }
  match RequestMissing u tmp0 with
  | none => none
  | some tmp1 =>
    match ReplyRequest u tmp1 with
    | none => none
    | some (u2, tmp2) =>
      match SendMessage u2 tmp2 with
      | none => none
      | some (u3, tmp3) =>
        let tmp4 :=
          if tmp3.packages = [] then
            if tmp3.size = 0 then { tmp3 with buf := tmp3.buf.set 0 TypeIgnore, size := 1 }
            else tmp3
          else tmp3
        some (u3, (NewPacakge tmp4).packages)

/-- ClearOutPacakge (name as in the source): the removal ends the loop,
so only the front package is removed. -/
def ClearOutPacakge (pkgs : List RUDPPackage) : List RUDPPackage :=
  pkgs.drop 1

/-- ClearMessageQueue: the removal ends the loop, so only the front entry
is removed. -/
def ClearMessageQueue (l : List Entry) : List Entry :=
  l.drop 1

/-- RUDPDelete: clear the four message lists and the package list. -/
def RUDPDelete (u : RUDP) : RUDP :=
  { u with
      sendQueue := ClearMessageQueue u.sendQueue
      recvQueue := ClearMessageQueue u.recvQueue
      sendHistory := ClearMessageQueue u.sendHistory
      freeList := ClearMessageQueue u.freeList
      sendPackage := ClearOutPacakge u.sendPackage }

/-- RUDPUpdate: advance CurrentTick, clear the previous outgoing batch,
decode the incoming buffer, run history expiry when the expire interval
has elapsed (passing LastExpireTick as the threshold), and when the send
interval has elapsed generate and store the next batch and return it;
otherwise return no batch. -/
def RUDPUpdate (u : RUDP) (buf : List Nat) (tick : Int) :
    Option (RUDP × Option (List RUDPPackage)) :=
  let u1 := { u with currentTick := u.currentTick + tick }
  let u2 := { u1 with sendPackage := ClearOutPacakge u1.sendPackage }
  let u3 := ExtractPackage u2 buf
  let u4 :=
    if u3.currentTick > u3.lastExpireTick + u3.expired then
      { u3 with
          sendHistory := ClearSendExpired u3.sendHistory u3.lastExpireTick
          lastExpireTick := u3.currentTick }
    else u3
  if u4.currentTick ≥ u4.lastSendTick + u4.sendDelay then
    match GenOutPackage u4 with
    | none => none
    | some (u5, pkgs) =>
      some ({ u5 with sendPackage := pkgs, lastSendTick := u5.currentTick }, some pkgs)
  else some (u4, none)

/-!
Theorems settling the claims follow.
-/

/-- Unfolding equation of ExtractPackage on the empty buffer. -/
theorem ExtractPackage_nil (u : RUDP) : ExtractPackage u [] = u := by
  rw [ExtractPackage.eq_def]

/-- Unfolding equation of ExtractPackage on a non-empty buffer. -/
theorem ExtractPackage_cons (u : RUDP) (b0 : Nat) (rest0 : List Nat) :
    ExtractPackage u (b0 :: rest0) =
      if b0 > 127 then
        match rest0 with
        | [] => { u with corrupt := 1 }
        | b1 :: rest1 =>
          match extractStep u ((b0 * 256 + b1) &&& 0x7fff) rest1 with
          | .halt u2 => u2
          | .cont u2 k => ExtractPackage u2 (rest1.drop k)
      else
        match extractStep u b0 rest0 with
        | .halt u2 => u2
        | .cont u2 k => ExtractPackage u2 (rest0.drop k) := by
  rw [ExtractPackage.eq_def]

/-- Claim C1.  The claim: for every 16-bit wire ID w and window state
recv_id_max = M, GetID returns the unique extended ID in
[M - 32768, M + 32768) whose low 16 bits equal w.  The code is wrong: the
wraparound adjustment uses the constant 0x100000 (an extra zero) instead
of 0x10000, so at M = 65536 and wire bytes 0xff 0xff it returns -917505,
far outside the window, while the unique in-window representative with
low bits 0xffff is 65535 (third conjunct). -/
theorem C1_getID_out_of_window :
    GetID { RUDPNew 1 1 with recvIdMax := 65536 } 255 255 = -917505
    ∧ ¬((65536 - 32768 : Int) ≤ -917505 ∧ (-917505 : Int) < 65536 + 32768)
    ∧ ((65535 : Int) % 65536 = 255 * 256 + 255
        ∧ (65536 - 32768 : Int) ≤ 65535 ∧ (65535 : Int) < 65536 + 32768) := by
  decide

/-- Claim C3.  The claim: after ClearSendExpired(t) no history record has
tick < t and records with tick ≥ t are untouched.  The code inverts the
comparison (`msg.Tick >= tick` is removed): a record with tick 5 is
removed at t = 1, and a record with tick 0 is kept at t = 1. -/
theorem C3_clearSendExpired_inverted :
    ClearSendExpired [Entry.msg { size := 0, cap := 512, id := 1, tick := 5, buf := [] }] 1 = []
    ∧ ClearSendExpired [Entry.msg { size := 0, cap := 512, id := 1, tick := 0, buf := [] }] 1
      = [Entry.msg { size := 0, cap := 512, id := 1, tick := 0, buf := [] }] := by
  decide

/-- Claim C4.  The claim: the fresh-sends step emits a Data record for
every outbound message regardless of payload size.  The code is wrong:
PackMessage has no branch at all for messages with Size ≤
DefaultPackageSize - 4, so a 1-byte message leaves the staging buffer
empty (no sealed package, fill size still 0) even though the message is
taken off the queue (and what lands in the history is the list element,
an Entry.junk, not the message). -/
theorem C4_sendMessage_emits_nothing :
    SendMessage
      { RUDPNew 1 1 with
          sendQueue := [Entry.msg { size := 1, cap := 512, id := 1, tick := 0, buf := [] }] }
      { buf := [], size := 0, packages := [] }
    = some ({ RUDPNew 1 1 with sendHistory := [Entry.junk] },
        { buf := [], size := 0, packages := [] }) := by
  decide

/-- Claim C5.  The claim: with extended_id > recv_id_max (or an empty
queue) the new message is appended at the high-id tail of the
ascending-ordered inbound queue.  The code is wrong: QueuePush is a
PushFront, so inserting id 1 and then id 2 into a fresh session leaves
the queue front-to-back as [2, 1] — the new highest id sits at the front
and the queue is descending, not ascending with the new entry at the
tail.  (RecvIdMax is set to the new id as claimed.) -/
theorem C5_insertMessage_prepends :
    ((InsertMessage (InsertMessage (RUDPNew 1 1) 1 [] 0) 2 [] 0).recvQueue.map fun e =>
        match e with
        | Entry.msg m => m.id
        | Entry.junk => -1) = [2, 1]
    ∧ (InsertMessage (InsertMessage (RUDPNew 1 1) 1 [] 0) 2 [] 0).recvIdMax = 2 := by
  decide

/-- Claim C8.  The claim: a long Data header's first byte is
`0x80 | ((len >> 8) & 0x7f)`.  The code is wrong: it ors in 0x89 instead
of 0x80, so for len = 128 the first byte written is 0x89 where the claim
requires 0x80 (second conjunct computes the claimed formula). -/
theorem C8_fillHeader_long_prefix :
    (FillHeader (List.replicate 4 0) 128 0).1 = [0x89, 0x80, 0, 0]
    ∧ (0x80 ||| (((128 : Nat) >>> 8) &&& 0x7f)) = 0x80
    ∧ (0x89 : Nat) ≠ 0x80 := by
  decide

/-- Session whose inbound queue holds exactly a gap placeholder (size -1,
no payload) with id equal to RecvIdMin, built by the code itself through
AddMissing on a fresh session. -/
def placeholderState : RUDP := AddMissing (RUDPNew 1 1) 0

/-- Claim C2, counterexample.  The claim says that when the entry at
recv_id_min is a placeholder, receive returns nothing and leaves the
inbound queue and recv_id_min unchanged.  On the concrete state whose
queue holds exactly the placeholder created by AddMissing at id 0 =
recv_id_min, RUDPRecv removes it and increments recv_id_min, so the
claimed behaviour is false. -/
theorem C2_recv_placeholder_cex :
    ¬((RUDPRecv placeholderState).2.recvQueue = placeholderState.recvQueue
      ∧ (RUDPRecv placeholderState).2.recvIdMin = placeholderState.recvIdMin) := by
  decide

/-- Claim C2, amended.  RUDPRecv performs no placeholder check at all:
when the session is not corrupt, it returns and removes the inbound-queue
entry with id = recv_id_min whenever one exists — placeholder or real
payload alike — incrementing recv_id_min by one; only when no entry with
that id exists does it return nothing and leave the queue and recv_id_min
(indeed the whole session) unchanged. -/
theorem C2_recv_pops_any_matching (u : RUDP) (h : u.corrupt = 0) :
    (∀ m q2, QueuePop u.recvQueue u.recvIdMin = (some m, q2) →
      (RUDPRecv u).2.recvQueue = q2 ∧ (RUDPRecv u).2.recvIdMin = u.recvIdMin + 1)
    ∧ ((QueuePop u.recvQueue u.recvIdMin).1 = none → (RUDPRecv u).2 = u) := by
  constructor
  · intro m q2 hpop
    unfold RUDPRecv
    rw [if_neg (by simp [h]), hpop]
    exact ⟨rfl, rfl⟩
  · intro hnone
    unfold RUDPRecv
    rw [if_neg (by simp [h])]
    rcases hq : QueuePop u.recvQueue u.recvIdMin with ⟨o, l⟩
    rw [hq] at hnone
    cases o with
    | none => rfl
    | some m => simp at hnone

/-- Witness for C2_recv_pops_any_matching at the concrete placeholder
state: the placeholder at id 0 is popped and recv_id_min becomes 1. -/
theorem C2_recv_pops_any_matching_witness :
    (RUDPRecv placeholderState).2.recvQueue = []
    ∧ (RUDPRecv placeholderState).2.recvIdMin = 0 + 1 :=
  (C2_recv_pops_any_matching placeholderState (by decide)).1
    { size := -1, cap := 512, id := 0, tick := 0, buf := [] } [] (by decide)

/-- Claim C6.  When the corrupt flag is set, RUDPRecv clears it and
returns the corruption error, delivering no bytes and leaving the inbound
queue and recv_id_min (and everything but the flag) unchanged; an
immediately following RUDPRecv reports no error. -/
theorem C6_corrupt_reported_once (u : RUDP) (h : u.corrupt ≠ 0) :
    RUDPRecv u = (([], true), { u with corrupt := 0 })
    ∧ (RUDPRecv (RUDPRecv u).2).1.2 = false := by
  have h1 : RUDPRecv u = (([], true), { u with corrupt := 0 }) := by
    unfold RUDPRecv
    rw [if_pos h]
  refine ⟨h1, ?_⟩
  rw [h1]
  unfold RUDPRecv
  rw [if_neg (by simp)]
  rcases hq : QueuePop ({ u with corrupt := 0 } : RUDP).recvQueue
      ({ u with corrupt := 0 } : RUDP).recvIdMin with ⟨o, l⟩
  cases o <;> rfl

/-- Witness for C6_corrupt_reported_once at a fresh session with the
corrupt flag set. -/
theorem C6_corrupt_reported_once_witness :
    RUDPRecv { RUDPNew 1 1 with corrupt := 1 }
      = (([], true), { { RUDPNew 1 1 with corrupt := 1 } with corrupt := 0 })
    ∧ (RUDPRecv (RUDPRecv { RUDPNew 1 1 with corrupt := 1 }).2).1.2 = false :=
  C6_corrupt_reported_once { RUDPNew 1 1 with corrupt := 1 } (by decide)

/-- ReplyRequest is a no-op apart from resetting N whenever SendAgain.N
is already 0: the loop `for i := 0; i < N` runs no iterations, so nothing
collected in SendAgain.A is ever looked at. -/
theorem ReplyRequest_n0 (v : RUDP) (tmp : TmpBuffer) (h : v.sendAgain.n = 0) :
    ReplyRequest v tmp = some (v, tmp) := by
  unfold ReplyRequest
  rw [h]
  norm_num [replyLoop]
  have h2 : ({ v.sendAgain with n := 0 } : PackageIndex) = v.sendAgain := by
    rcases hv : v.sendAgain with ⟨c, n, a⟩
    rw [hv] at h
    rw [show n = (0 : Int) from h]
  rw [h2]

/-- Result of decoding the single-record buffer [TypeIgnore] on a fresh
session: recv_id_min = 0 is appended to SendAgain.A, N stays 0. -/
def ignoreDecoded : RUDP := { RUDPNew 1 1 with sendAgain := { cap := 0, n := 0, a := [0] } }

/-- Evaluation lemma: ExtractPackage on the one-byte Ignore buffer. -/
theorem ignoreDecoded_eq : ExtractPackage (RUDPNew 1 1) [0] = ignoreDecoded := by
  rw [ExtractPackage_cons]
  norm_num [extractStep, TypeIgnore, RUDPNew]
  rw [ExtractPackage_nil]
  rfl

/-- Claim C9, counterexample.  The claim says the append happens when the
retransmission index is empty, and that the next send cycle then treats
recv_id_min as a peer-requested ID.  On a fresh session decoding the
one-byte Ignore buffer, recv_id_min = 0 is indeed appended to SendAgain.A
— but SendAgain.N (which the decoder never increments) stays 0, so the
next send cycle ignores the entry entirely: ReplyRequest passes the
staging buffer through untouched, and the full cycle GenOutPackage
produces only the one-byte keep-alive package (size 1).  Had the claim
held, ReplyRequest would have walked the (empty) history for id 0 and
packed a 3-byte Missing record. -/
theorem C9_ignore_not_requested_cex :
    (ExtractPackage (RUDPNew 1 1) [0]).sendAgain.a = [0]
    ∧ (ExtractPackage (RUDPNew 1 1) [0]).sendAgain.n = 0
    ∧ ReplyRequest (ExtractPackage (RUDPNew 1 1) [0]) { buf := [], size := 0, packages := [] }
      = some (ExtractPackage (RUDPNew 1 1) [0], { buf := [], size := 0, packages := [] })
    ∧ GenOutPackage (ExtractPackage (RUDPNew 1 1) [0])
      = some (ExtractPackage (RUDPNew 1 1) [0], [{ size := 1, buf := [] }]) := by
  rw [ignoreDecoded_eq]
  exact ⟨by decide, by decide, by decide, by decide⟩

/-- Claim C9, amended.  Decoding an Ignore record leaves the inbound
queue, the outbound queue, the sequence window and the corrupt flag
unchanged, and when SendAgain.N = 0 it appends the current recv_id_min to
the SendAgain.A array without changing N; since ReplyRequest only
iterates the first N entries, the next send cycle does not treat
recv_id_min (or anything in A) as a peer-requested ID. -/
theorem C9_ignore_record_effects (u : RUDP) (rest : List Nat) (tmp : TmpBuffer)
    (h : u.sendAgain.n = 0) :
    extractStep u TypeIgnore rest
      = StepOut.cont
          { u with sendAgain := { u.sendAgain with a := u.sendAgain.a ++ [u.recvIdMin] } } 0
    ∧ (extractStep u TypeIgnore rest).state.recvQueue = u.recvQueue
    ∧ (extractStep u TypeIgnore rest).state.sendQueue = u.sendQueue
    ∧ (extractStep u TypeIgnore rest).state.recvIdMin = u.recvIdMin
    ∧ (extractStep u TypeIgnore rest).state.recvIdMax = u.recvIdMax
    ∧ (extractStep u TypeIgnore rest).state.corrupt = u.corrupt
    ∧ (extractStep u TypeIgnore rest).state.sendAgain.n = 0
    ∧ ReplyRequest
        { u with sendAgain := { u.sendAgain with a := u.sendAgain.a ++ [u.recvIdMin] } } tmp
      = some ({ u with sendAgain := { u.sendAgain with a := u.sendAgain.a ++ [u.recvIdMin] } },
          tmp) := by
  have hstep : extractStep u TypeIgnore rest
      = StepOut.cont
          { u with sendAgain := { u.sendAgain with a := u.sendAgain.a ++ [u.recvIdMin] } } 0 := by
    unfold extractStep
    rw [if_pos rfl, if_pos h]
  refine ⟨hstep, ?_, ?_, ?_, ?_, ?_, ?_, ?_⟩
  · rw [hstep]
    rfl
  · rw [hstep]
    rfl
  · rw [hstep]
    rfl
  · rw [hstep]
    rfl
  · rw [hstep]
    rfl
  · rw [hstep]
    exact h
  · exact ReplyRequest_n0 _ tmp h

/-- Witness for C9_ignore_record_effects on a fresh session. -/
theorem C9_ignore_record_effects_witness :
    extractStep (RUDPNew 1 1) TypeIgnore []
      = StepOut.cont { RUDPNew 1 1 with sendAgain := { cap := 0, n := 0, a := [0] } } 0
    ∧ ReplyRequest { RUDPNew 1 1 with sendAgain := { cap := 0, n := 0, a := [0] } }
        { buf := [], size := 0, packages := [] }
      = some ({ RUDPNew 1 1 with sendAgain := { cap := 0, n := 0, a := [0] } },
          { buf := [], size := 0, packages := [] }) := by
  have h := C9_ignore_record_effects (RUDPNew 1 1) []
    { buf := [], size := 0, packages := [] } (by decide)
  exact ⟨h.1, h.2.2.2.2.2.2.2⟩

/-- A record whose prefix value is `length` is undersized for the `rest`
bytes that follow its prefix: a Request or Missing record with fewer than
2 bytes left, or a data record (prefix value at least TypeNormal) with
fewer than payload + 2 bytes left.  These are exactly the conditions
under which the decoder switch sets the corrupt flag for lack of bytes. -/
def undersizedAfter (length : Nat) (rest : List Nat) : Bool :=
  ((length == TypeRequest || length == TypeMissing) && decide (rest.length < 2))
  || (decide (4 ≤ length) && decide (rest.length < (length - TypeNormal) + 2))

/-- The buffer starts with a truncated or undersized record: a two-byte
prefix cut off after its first byte, or a record body shorter than its
prefix declares. -/
def Truncated (buf : List Nat) : Bool :=
  match buf with
  | [] => false
  | b0 :: rest0 =>
    if b0 > 127 then
      match rest0 with
      | [] => true
      | b1 :: rest1 => undersizedAfter ((b0 * 256 + b1) &&& 0x7fff) rest1
    else undersizedAfter b0 rest0

/-- Record-by-record progress of the decoder: `Steps u buf u2 rest` holds
when, starting from state u on buffer buf, processing zero or more
complete records left to right (each its prefix plus the bytes the switch
consumes) reaches state u2 with the bytes rest still unprocessed. -/
inductive Steps : RUDP → List Nat → RUDP → List Nat → Prop where
  | refl (u : RUDP) (buf : List Nat) : Steps u buf u buf
  | short (u : RUDP) (b0 : Nat) (rest0 : List Nat) (u2 : RUDP) (k : Nat)
      (u3 : RUDP) (rest : List Nat) :
      b0 ≤ 127 → extractStep u b0 rest0 = StepOut.cont u2 k →
      Steps u2 (rest0.drop k) u3 rest → Steps u (b0 :: rest0) u3 rest
  | long (u : RUDP) (b0 b1 : Nat) (rest1 : List Nat) (u2 : RUDP) (k : Nat)
      (u3 : RUDP) (rest : List Nat) :
      b0 > 127 → extractStep u ((b0 * 256 + b1) &&& 0x7fff) rest1 = StepOut.cont u2 k →
      Steps u2 (rest1.drop k) u3 rest → Steps u (b0 :: b1 :: rest1) u3 rest

/-- An undersized record makes the decoder switch halt with the corrupt
flag set and no other state change. -/
theorem extractStep_undersized (u : RUDP) (L : Nat) (rest : List Nat)
    (h : undersizedAfter L rest = true) :
    extractStep u L rest = StepOut.halt { u with corrupt := 1 } := by
  unfold undersizedAfter at h
  simp only [Bool.or_eq_true, Bool.and_eq_true, Bool.or_eq_true, beq_iff_eq,
    decide_eq_true_eq] at h
  unfold extractStep
  rcases h with ⟨hL, hlen⟩ | ⟨hL, hlen⟩
  · have h0 : L ≠ TypeIgnore := by
      rcases hL with h | h <;> subst h <;> decide
    have h1 : L ≠ TypeCorrupt := by
      rcases hL with h | h <;> subst h <;> decide
    rw [if_neg h0, if_neg h1, if_pos hL]
    match rest, hlen with
    | [], _ => rfl
    | [x], _ => rfl
    | x :: y :: r, hlen =>
      simp only [List.length_cons] at hlen
      omega
  · have h0 : L ≠ TypeIgnore := by
      unfold TypeIgnore
      omega
    have h1 : L ≠ TypeCorrupt := by
      unfold TypeCorrupt
      omega
    have h23 : ¬(L = TypeRequest ∨ L = TypeMissing) := by
      unfold TypeRequest TypeMissing
      omega
    rw [if_neg h0, if_neg h1, if_neg h23]
    match rest, hlen with
    | [], _ => rfl
    | [x], _ => rfl
    | x :: y :: r, hlen =>
      have hr : r.length < L - TypeNormal := by
        simp only [List.length_cons] at hlen
        unfold TypeNormal at hlen ⊢
        omega
      simp only [if_pos hr]

/-- A buffer whose head record is truncated or undersized decodes to the
current state with only the corrupt flag set: the remaining bytes are not
processed. -/
theorem ExtractPackage_truncated (u : RUDP) (buf : List Nat) (h : Truncated buf = true) :
    ExtractPackage u buf = { u with corrupt := 1 } := by
  match buf, h with
  | [], h => simp [Truncated] at h
  | b0 :: rest0, h =>
    simp only [Truncated] at h
    rw [ExtractPackage_cons]
    by_cases hb : b0 > 127
    · rw [if_pos hb] at h ⊢
      match rest0, h with
      | [], _ => rfl
      | b1 :: rest1, h =>
        replace h : undersizedAfter ((b0 * 256 + b1) &&& 0x7fff) rest1 = true := h
        show (match extractStep u ((b0 * 256 + b1) &&& 0x7fff) rest1 with
          | StepOut.halt u2 => u2
          | StepOut.cont u2 k => ExtractPackage u2 (rest1.drop k)) = { u with corrupt := 1 }
        rw [extractStep_undersized u _ rest1 h]
    · rw [if_neg hb] at h ⊢
      rw [extractStep_undersized u b0 rest0 h]

/-- Claim C7.  The decoder processes records strictly left to right: after
any sequence of complete records (the Steps relation, each record its one-
or two-byte prefix plus the bytes its case consumes) the decode of the
whole buffer equals the decode of the remaining bytes from the
intermediate state; and whenever the bytes remaining at that point begin
with a truncated or undersized record, the result is that intermediate
state with only the corrupt flag set — the rest of the packet is left
unprocessed. -/
theorem C7_decode_truncation_aborts (u u3 : RUDP) (buf rest : List Nat)
    (h : Steps u buf u3 rest) :
    ExtractPackage u buf = ExtractPackage u3 rest
    ∧ (Truncated rest = true → ExtractPackage u buf = { u3 with corrupt := 1 }) := by
  induction h with
  | refl u buf =>
    exact ⟨rfl, fun ht => ExtractPackage_truncated u buf ht⟩
  | short u b0 rest0 u2 k u3 rest hb hstep hsteps ih =>
    have heq : ExtractPackage u (b0 :: rest0) = ExtractPackage u2 (rest0.drop k) := by
      rw [ExtractPackage_cons]
      rw [if_neg (by omega), hstep]
    exact ⟨heq.trans ih.1, fun ht => heq.trans (ih.2 ht)⟩
  | long u b0 b1 rest1 u2 k u3 rest hb hstep hsteps ih =>
    have heq : ExtractPackage u (b0 :: b1 :: rest1) = ExtractPackage u2 (rest1.drop k) := by
      rw [ExtractPackage_cons]
      rw [if_pos hb]
      show (match extractStep u ((b0 * 256 + b1) &&& 0x7fff) rest1 with
        | StepOut.halt u2 => u2
        | StepOut.cont u2 k => ExtractPackage u2 (rest1.drop k)) = ExtractPackage u2 (rest1.drop k)
      rw [hstep]
    exact ⟨heq.trans ih.1, fun ht => heq.trans (ih.2 ht)⟩

/-- Witness for C7_decode_truncation_aborts: the one-byte buffer [133]
starts a two-byte prefix with no second byte, so a fresh session decodes
it to itself with the corrupt flag set. -/
theorem C7_decode_truncation_aborts_witness :
    ExtractPackage (RUDPNew 1 1) [133] = { RUDPNew 1 1 with corrupt := 1 } :=
  (C7_decode_truncation_aborts (RUDPNew 1 1) (RUDPNew 1 1) [133] [133]
    (Steps.refl (RUDPNew 1 1) [133])).2 (by decide)

/-- InsertMessage never changes RecvIdMin, whichever branch runs. -/
theorem InsertMessage_recvIdMin (u : RUDP) (id : Int) (buf : List Nat) (sz : Int) :
    (InsertMessage u id buf sz).recvIdMin = u.recvIdMin := by
  unfold InsertMessage
  split
  · rfl
  · split
    · rfl
    · split <;> rfl

/-- The decoder switch never changes RecvIdMin. -/
theorem extractStep_recvIdMin (u : RUDP) (L : Nat) (rest : List Nat) :
    ((extractStep u L rest).state).recvIdMin = u.recvIdMin := by
  unfold extractStep
  split
  · split <;> rfl
  · split
    · rfl
    · split
      · split
        · split
          · rfl
          · simp [StepOut.state, AddMissing, InsertMessage_recvIdMin]
        · rfl
      · split
        · dsimp only
          split
          · rfl
          · simp [StepOut.state, InsertMessage_recvIdMin]
        · rfl

/-- Instance of extractStep_recvIdMin for a continuing step. -/
theorem extractStep_cont_recvIdMin {u u2 : RUDP} {L k : Nat} {rest : List Nat}
    (h : extractStep u L rest = StepOut.cont u2 k) : u2.recvIdMin = u.recvIdMin := by
  have h2 := extractStep_recvIdMin u L rest
  rw [h] at h2
  exact h2

/-- Instance of extractStep_recvIdMin for a halting step. -/
theorem extractStep_halt_recvIdMin {u u2 : RUDP} {L : Nat} {rest : List Nat}
    (h : extractStep u L rest = StepOut.halt u2) : u2.recvIdMin = u.recvIdMin := by
  have h2 := extractStep_recvIdMin u L rest
  rw [h] at h2
  exact h2

/-- Decoding a whole buffer never changes RecvIdMin. -/
theorem ExtractPackage_recvIdMin (u : RUDP) (buf : List Nat) :
    (ExtractPackage u buf).recvIdMin = u.recvIdMin := by
  induction u, buf using ExtractPackage.induct with
  | case1 u => rw [ExtractPackage_nil]
  | case2 u b0 hb =>
    rw [ExtractPackage_cons, if_pos hb]
  | case3 u b0 hb b1 rest1 u2 hstep =>
    rw [ExtractPackage_cons, if_pos hb]
    show (match extractStep u ((b0 * 256 + b1) &&& 0x7fff) rest1 with
      | StepOut.halt v => v
      | StepOut.cont v k => ExtractPackage v (rest1.drop k)).recvIdMin = u.recvIdMin
    rw [hstep]
    exact extractStep_halt_recvIdMin hstep
  | case4 u b0 hb b1 rest1 u2 k hstep ih =>
    rw [ExtractPackage_cons, if_pos hb]
    show (match extractStep u ((b0 * 256 + b1) &&& 0x7fff) rest1 with
      | StepOut.halt v => v
      | StepOut.cont v k => ExtractPackage v (rest1.drop k)).recvIdMin = u.recvIdMin
    rw [hstep]
    rw [ih]
    exact extractStep_cont_recvIdMin hstep
  | case5 u b0 rest0 hb u2 hstep =>
    rw [ExtractPackage_cons, if_neg hb]
    show (match extractStep u b0 rest0 with
      | StepOut.halt v => v
      | StepOut.cont v k => ExtractPackage v (rest0.drop k)).recvIdMin = u.recvIdMin
    rw [hstep]
    exact extractStep_halt_recvIdMin hstep
  | case6 u b0 rest0 hb u2 k hstep ih =>
    rw [ExtractPackage_cons, if_neg hb]
    show (match extractStep u b0 rest0 with
      | StepOut.halt v => v
      | StepOut.cont v k => ExtractPackage v (rest0.drop k)).recvIdMin = u.recvIdMin
    rw [hstep]
    rw [ih]
    exact extractStep_cont_recvIdMin hstep

/-- The fresh-sends phase never changes RecvIdMin. -/
theorem SendMessage_recvIdMin {u v : RUDP} {tmp tmp2 : TmpBuffer}
    (h : SendMessage u tmp = some (v, tmp2)) : v.recvIdMin = u.recvIdMin := by
  unfold SendMessage at h
  split at h
  · rw [Option.some.injEq, Prod.mk.injEq] at h
    rw [← h.1]
  · exact absurd h (by simp)
  · split at h
    · exact absurd h (by simp)
    · rw [Option.some.injEq, Prod.mk.injEq] at h
      rw [← h.1]

/-- The peer-request reply phase never changes RecvIdMin. -/
theorem ReplyRequest_recvIdMin {u v : RUDP} {tmp tmp2 : TmpBuffer}
    (h : ReplyRequest u tmp = some (v, tmp2)) : v.recvIdMin = u.recvIdMin := by
  unfold ReplyRequest at h
  split at h
  · exact absurd h (by simp)
  · split at h
    · exact absurd h (by simp)
    · rw [Option.some.injEq, Prod.mk.injEq] at h
      rw [← h.1]

/-- The whole outgoing-batch generation never changes RecvIdMin. -/
theorem GenOutPackage_recvIdMin {u v : RUDP} {pkgs : List RUDPPackage}
    (h : GenOutPackage u = some (v, pkgs)) : v.recvIdMin = u.recvIdMin := by
  unfold GenOutPackage at h
  dsimp only at h
  rcases hrm : RequestMissing u { buf := List.replicate 512 0, size := 0, packages := [] }
    with _ | tmp1
  · simp only [hrm] at h
    exact Option.noConfusion h
  · simp only [hrm] at h
    rcases hrr : ReplyRequest u tmp1 with _ | ⟨u2, tmp2⟩
    · simp only [hrr] at h
      exact Option.noConfusion h
    · simp only [hrr] at h
      rcases hsm : SendMessage u2 tmp2 with _ | ⟨u3, tmp3⟩
      · simp only [hsm] at h
        exact Option.noConfusion h
      · simp only [hsm, Option.some.injEq, Prod.mk.injEq] at h
        rw [← h.1]
        exact (SendMessage_recvIdMin hsm).trans (ReplyRequest_recvIdMin hrr)

/-- The send-interval phase of RUDPUpdate never changes RecvIdMin. -/
theorem sendPhase_recvIdMin {u4 v : RUDP} {out : Option (List RUDPPackage)}
    (h : (if u4.currentTick ≥ u4.lastSendTick + u4.sendDelay then
            match GenOutPackage u4 with
            | none => none
            | some (u5, pkgs) =>
              some ({ u5 with sendPackage := pkgs, lastSendTick := u5.currentTick }, some pkgs)
          else some (u4, none)) = some (v, out)) : v.recvIdMin = u4.recvIdMin := by
  split at h
  · rcases hgen : GenOutPackage u4 with _ | ⟨u5, pk⟩
    · simp only [hgen] at h
      exact Option.noConfusion h
    · simp only [hgen, Option.some.injEq, Prod.mk.injEq] at h
      rw [← h.1]
      show u5.recvIdMin = u4.recvIdMin
      exact GenOutPackage_recvIdMin hgen
  · rw [Option.some.injEq, Prod.mk.injEq] at h
    rw [← h.1]

/-- A full update cycle never changes RecvIdMin. -/
theorem RUDPUpdate_recvIdMin {u v : RUDP} {buf : List Nat} {tick : Int}
    {out : Option (List RUDPPackage)}
    (h : RUDPUpdate u buf tick = some (v, out)) : v.recvIdMin = u.recvIdMin := by
  unfold RUDPUpdate at h
  dsimp only at h
  generalize hg : ExtractPackage
    { u with
        sendPackage := ClearOutPacakge u.sendPackage
        currentTick := u.currentTick + tick } buf = u3 at h
  have hmin3 : u3.recvIdMin = u.recvIdMin := by
    rw [← hg]
    exact ExtractPackage_recvIdMin _ _
  split at h
  · exact (sendPhase_recvIdMin h).trans hmin3
  · exact (sendPhase_recvIdMin h).trans hmin3

/-- Claim C10.  RecvIdMin never decreases across the public operations:
RUDPSend leaves it unchanged; RUDPRecv leaves it unchanged or increases
it by exactly one, and increases it exactly when the session is not
corrupt and an inbound entry with id = recv_id_min exists (the only
notion of successful receive the code has — it pops placeholders too, see
claim C2); RUDPUpdate, when it completes, leaves it unchanged; and
RUDPDelete leaves it unchanged. -/
theorem C10_recvIdMin_monotone (u : RUDP) (payload buf : List Nat) (sz tick : Int) :
    (RUDPSend u payload sz).recvIdMin = u.recvIdMin
    ∧ ((RUDPRecv u).2.recvIdMin = u.recvIdMin ∨ (RUDPRecv u).2.recvIdMin = u.recvIdMin + 1)
    ∧ ((RUDPRecv u).2.recvIdMin = u.recvIdMin + 1
        ↔ (u.corrupt = 0 ∧ (QueuePop u.recvQueue u.recvIdMin).1.isSome))
    ∧ ((RUDPUpdate u buf tick).map fun r => r.1.recvIdMin).getD u.recvIdMin = u.recvIdMin
    ∧ (RUDPDelete u).recvIdMin = u.recvIdMin := by
  have hupd : ((RUDPUpdate u buf tick).map fun r => r.1.recvIdMin).getD u.recvIdMin
      = u.recvIdMin := by
    rcases hru : RUDPUpdate u buf tick with _ | ⟨v, out⟩
    · rfl
    · exact RUDPUpdate_recvIdMin hru
  have key :
      ((RUDPRecv u).2.recvIdMin = u.recvIdMin
        ∧ ¬(u.corrupt = 0 ∧ (QueuePop u.recvQueue u.recvIdMin).1.isSome))
      ∨ ((RUDPRecv u).2.recvIdMin = u.recvIdMin + 1
        ∧ (u.corrupt = 0 ∧ (QueuePop u.recvQueue u.recvIdMin).1.isSome)) := by
    unfold RUDPRecv
    by_cases hc : u.corrupt = 0
    · rw [if_neg (by simp [hc])]
      rcases hq : QueuePop u.recvQueue u.recvIdMin with ⟨o, l⟩
      cases o with
      | none =>
        left
        exact ⟨rfl, by simp⟩
      | some m =>
        right
        exact ⟨rfl, hc, by simp⟩
    · rw [if_pos hc]
      left
      exact ⟨rfl, fun hcc => hc hcc.1⟩
  rcases key with ⟨h1, h2⟩ | ⟨h1, h2⟩
  · refine ⟨rfl, Or.inl h1, ⟨?_, ?_⟩, hupd, rfl⟩
    · intro hplus
      have hcon := h1.symm.trans hplus
      omega
    · intro hcc
      exact absurd hcc h2
  · refine ⟨rfl, Or.inr h1, ⟨fun _ => h2, fun _ => h1⟩, hupd, rfl⟩

end Rudp
